import Mathlib

/-!
# Concurrent traffic simulation: `MessageQueue` and `TrafficLight`

A shallow embedding of `src/TrafficLight.cpp`.

* `MessageQueue<T>` is its `_queue` deque, front element at the head of a list.
  `receive` and `send` are functions on that list; next to them each call has
  the list of synchronisation and container effects it performs, in program
  order.
* `TrafficLight` is `_currentPhase` together with the `_phases` queue.
* `cycleThroughPhases` is a step function over the locals `start` and
  `wait_time`.  Clock readings are tick counts, durations in seconds are
  rationals (every finite `double` is one), and the conversion of line 80 from a
  tick difference to `duration<double>` seconds, rounding included, is a
  parameter `toSeconds`.  One pass is made of the statements up to line 103 and
  of the send of line 105, so that a consumer can be scheduled between the two.
-/

/-- What a call leaves its caller with. -/
inductive Outcome (α : Type) where
  /-- the call returns `a` -/
  | returned (a : α)
  /-- the caller is held in the condition wait -/
  | parked
  /-- the call reached `_queue.front()` on a deque without elements -/
  | emptyFront
  deriving DecidableEq

/-- Modelled from the spec: the class template `MessageQueue<T>` is declared in
`TrafficLight.h`, which is not among the sources; the spec describes it as an
unbounded ordered sequence of values plus a lock and a wait/notify signal.
Kept here is the sequence, the `_queue` deque the source file works on, oldest
element first. -/
structure MessageQueue (T : Type) where
  /-- the `_queue` member -/
  _queue : List T
  deriving DecidableEq

namespace MessageQueue

variable {T : Type}

/-- The closure of line 15 as it is written, `[this]() {!this->_queue.empty();}`.
Its body is a single expression statement: the negated emptiness test is
computed and dropped, no `return` follows, and a call hands back no value. -/
def receiveWaitClosure (q : MessageQueue T) : Option Bool :=
  let _dropped := !q._queue.isEmpty
  none

/-- The test inside the closure of line 15, `!this->_queue.empty()`: the answer
the wait predicate is written to give. -/
def receiveWaitPredicate (q : MessageQueue T) : Bool :=
  !q._queue.isEmpty

/-- The library call `_cond.wait(lock, pred)`, which is
`while (!pred()) wait(lock);`: the caller is held back while the predicate
answers `false`. -/
def waitParks (answer : Bool) : Bool :=
  !answer

/-- `MessageQueue<T>::receive` (lines 9-20): the wait of line 15, then
`front()`, `pop_front()` and the return of the moved value.  The wait is taken
with the test of its closure as the predicate's answer; the closure as written
(`receiveWaitClosure`) hands that answer to nobody. -/
def receive (q : MessageQueue T) : Outcome (T × MessageQueue T) :=
  if waitParks (receiveWaitPredicate q) then
    .parked
  else
    match q._queue with
    | [] => .emptyFront
    | v :: rest => .returned (v, { _queue := rest })

/-- `MessageQueue<T>::send` (lines 23-31): `push_back` of the message; the
notification of line 30 leaves the deque as it is. -/
def send (q : MessageQueue T) (msg : T) : MessageQueue T :=
  { _queue := q._queue ++ [msg] }

/-- One call on a queue. -/
inductive Call (T : Type) where
  | send (msg : T)
  | receive
  deriving DecidableEq

/-- The values passed to `send`, in call order. -/
def sentValues : List (Call T) → List T
  | [] => []
  | .send v :: cs => v :: sentValues cs
  | .receive :: cs => sentValues cs

/-- How many of the calls are `receive` calls. -/
def receiveCount : List (Call T) → Nat
  | [] => 0
  | .send _ :: cs => receiveCount cs
  | .receive :: cs => receiveCount cs + 1

/-- Every `receive` of the sequence is issued on a queue that holds an element. -/
def receivesOnNonEmpty (q : MessageQueue T) : List (Call T) → Bool
  | [] => true
  | .send v :: cs => receivesOnNonEmpty (send q v) cs
  | .receive :: cs => !q._queue.isEmpty && receivesOnNonEmpty { _queue := q._queue.tail } cs

/-- Runs the calls in order on `q` and collects what the `receive` calls
return, together with the queue left at the end; `none` when some `receive`
does not return a value. -/
def runCalls (q : MessageQueue T) : List (Call T) → Option (List T × MessageQueue T)
  | [] => some ([], q)
  | .send v :: cs => runCalls (send q v) cs
  | .receive :: cs =>
    match receive q with
    | .returned (v, q') => (runCalls q' cs).map fun r => (v :: r.1, r.2)
    | _ => none

/-- What a call does to the mutex, the condition variable and the deque, one
effect per statement. -/
inductive Effect (T : Type) where
  /-- a lock object is constructed on `_mtx`: the mutex is acquired -/
  | lock
  /-- the lock object leaves its scope: the mutex is released -/
  | unlock
  /-- `_cond.wait(lock, ...)`: the mutex is given up while the caller is
  suspended and is held again when the call returns -/
  | wait
  /-- `_cond.notify_one()` -/
  | notifyOne
  /-- `_queue.front()` -/
  | front
  /-- `_queue.pop_front()` -/
  | popFront
  /-- `_queue.push_back(v)` -/
  | pushBack (v : T)
  deriving DecidableEq

/-- The effects of `send` (lines 28-31) in program order: the declaration of
line 28, `push_back` (line 29), `notify_one` (line 30), the end of the scope
(line 31).  `guard` says whether the declaration of line 28 puts a guard on
`_mtx`: as written, `std::lock_guard _<_mtx>;` hands `_mtx` to no constructor,
and both readings are kept. -/
def sendEffects (guard : Bool) (msg : T) : List (Effect T) :=
  (if guard then [Effect.lock] else []) ++ [Effect.pushBack msg, Effect.notifyOne] ++
    (if guard then [Effect.unlock] else [])

/-- The effects of a `receive` that returns (lines 14-19) in program order:
the `unique_lock` of line 14, the wait of line 15, `front`, `pop_front`, and
the end of the scope at the return. -/
def receiveEffects : List (Effect T) :=
  [Effect.lock, Effect.wait, Effect.front, Effect.popFront, Effect.unlock]

/-- Follows the claim's words, not the source: acquire the mutex, append,
release the mutex, then wake one receiver. -/
def sendEffectsClaimed (msg : T) : List (Effect T) :=
  [Effect.lock, Effect.pushBack msg, Effect.unlock, Effect.notifyOne]

/-- What the effects do to the deque. -/
def applyEffects : List (Effect T) → List T → List T
  | [], q => q
  | .pushBack v :: es, q => applyEffects es (q ++ [v])
  | .popFront :: es, q => applyEffects es q.tail
  | .lock :: es, q => applyEffects es q
  | .unlock :: es, q => applyEffects es q
  | .wait :: es, q => applyEffects es q
  | .notifyOne :: es, q => applyEffects es q
  | .front :: es, q => applyEffects es q

/-- Every access to the deque (`front`, `pop_front`, `push_back`) is made with
the mutex held; `held` says whether it is held before the first effect. -/
def accessesUnderLock : Bool → List (Effect T) → Bool
  | _, [] => true
  | _, .lock :: es => accessesUnderLock true es
  | _, .unlock :: es => accessesUnderLock false es
  | held, .wait :: es => accessesUnderLock held es
  | held, .notifyOne :: es => accessesUnderLock held es
  | held, .front :: es => held && accessesUnderLock held es
  | held, .popFront :: es => held && accessesUnderLock held es
  | held, .pushBack _ :: es => held && accessesUnderLock held es

/-- The first notification comes after a release of the mutex; `released` says
whether a release has been seen before the first effect. -/
def notifiesAfterRelease : Bool → List (Effect T) → Bool
  | _, [] => false
  | released, .notifyOne :: _ => released
  | _, .unlock :: es => notifiesAfterRelease true es
  | released, .lock :: es => notifiesAfterRelease released es
  | released, .wait :: es => notifiesAfterRelease released es
  | released, .front :: es => notifiesAfterRelease released es
  | released, .popFront :: es => notifiesAfterRelease released es
  | released, .pushBack _ :: es => notifiesAfterRelease released es

end MessageQueue

/-- Modelled from the spec: the enum `TrafficLightPhase` is declared in
`TrafficLight.h`, which is not among the sources; the spec gives its two
values, Red and Green.  `invalid` stands for any other value an object of the
enum type may hold, the case the `default` label of line 96 is written for. -/
inductive TrafficLightPhase where
  | red
  | green
  | invalid
  deriving DecidableEq

/-- The phase is one of the two enumerators. -/
def TrafficLightPhase.Valid (p : TrafficLightPhase) : Prop :=
  p = .red ∨ p = .green

/-- Modelled from the spec: the class `TrafficLight` is declared in
`TrafficLight.h`, which is not among the sources; the spec describes it as
holding the current phase and one owned mailbox.  These are the two members
the source file reads and writes, `_currentPhase` and `_phases`. -/
structure TrafficLight where
  /-- the `_currentPhase` member -/
  _currentPhase : TrafficLightPhase
  /-- the `_phases` member -/
  _phases : MessageQueue TrafficLightPhase
  deriving DecidableEq

/-- The constructor `TrafficLight::TrafficLight()` (lines 36-39):
`_currentPhase` is set to red; `_phases` is default-constructed, a queue
without elements. -/
def TrafficLight.ctor : TrafficLight :=
  { _currentPhase := .red, _phases := { _queue := [] } }

/-- `TrafficLight::waitForGreen` (lines 41-52): `receive` is called in a loop
until it returns green.  The result carries the object as the call leaves it.
`fuel` bounds the number of loop passes; `none` means the bound was reached. -/
def TrafficLight.waitForGreen : Nat → TrafficLight → Option (Outcome TrafficLight)
  | 0, _ => none
  | fuel + 1, l =>
    match l._phases.receive with
    | .returned (v, q) =>
      if v = TrafficLightPhase.green then
        some (.returned { l with _phases := q })
      else
        TrafficLight.waitForGreen fuel { l with _phases := q }
    | .parked => some .parked
    | .emptyFront => some .emptyFront

/-- `TrafficLight::getCurrentPhase` (lines 54-57): the value read, and the
object as the call leaves it. -/
def TrafficLight.getCurrentPhase (l : TrafficLight) : TrafficLightPhase × TrafficLight :=
  (l._currentPhase, l)

/-- The state `cycleThroughPhases` works on: the object and the locals `start`
(a clock reading, in ticks) and `wait_time` (seconds). -/
structure CycleState where
  light : TrafficLight
  start : Int
  wait_time : ℚ
  deriving DecidableEq

/-- What one pass of the loop reads from outside: the clock at line 80, the
clock at line 102 (both in ticks) and the value `dist(rd)` of line 103 (the
last two are read only on the toggling branch). -/
structure LoopPass where
  now : Int
  restart : Int
  draw : ℚ
  deriving DecidableEq

/-- How the statements of lines 80-103 of one pass end. -/
inductive DecideResult where
  /-- the `else` branch of line 106: nothing was done -/
  | idle (s : CycleState)
  /-- the phase is committed, clock and duration are renewed, and the local
  `p` waits to be sent by line 105 -/
  | committed (s : CycleState) (p : TrafficLightPhase)
  /-- the `throw` of line 98 left the loop, with the state as it was then -/
  | thrown (msg : String) (s : CycleState)
  deriving DecidableEq

/-- Lines 80-103 of one pass of the `while (true)` loop: `diff` is the tick
difference turned into seconds by `toSeconds`; when it has reached `wait_time`
the `switch` commits the other phase and sets `p`, then `start` and
`wait_time` are renewed. -/
def TrafficLight.cycleDecide (toSeconds : Int → ℚ) (s : CycleState) (i : LoopPass) :
    DecideResult :=
  let diff := toSeconds (i.now - s.start)
  if diff ≥ s.wait_time then
    match s.light._currentPhase with
    | .green =>
      .committed
        { light := { s.light with _currentPhase := .red }
          start := i.restart
          wait_time := i.draw }
        .red
    | .red =>
      .committed
        { light := { s.light with _currentPhase := .green }
          start := i.restart
          wait_time := i.draw }
        .green
    | .invalid => .thrown "bad value for _currentPhase" s
  else
    .idle s

/-- Line 105 of a pass: `_phases.send(std::move(p))`. -/
def TrafficLight.cyclePublish (s : CycleState) (p : TrafficLightPhase) : CycleState :=
  { s with light := { s.light with _phases := s.light._phases.send p } }

/-- How one pass of the loop ends. -/
inductive PassResult where
  /-- the `else` branch of line 106: nothing was done -/
  | idle (s : CycleState)
  /-- lines 83-105 ran through: phase committed, clock and duration renewed, phase sent -/
  | toggled (s : CycleState)
  /-- the `throw` of line 98 left the loop, with the state as it was then -/
  | thrown (msg : String) (s : CycleState)
  deriving DecidableEq

/-- One whole pass of the `while (true)` loop of `cycleThroughPhases`
(lines 80-109): lines 80-103, then the send of line 105.  The sleep of line
109 changes nothing of the state. -/
def TrafficLight.cyclePass (toSeconds : Int → ℚ) (s : CycleState) (i : LoopPass) :
    PassResult :=
  match TrafficLight.cycleDecide toSeconds s i with
  | .idle s' => .idle s'
  | .committed s' p => .toggled (TrafficLight.cyclePublish s' p)
  | .thrown msg s' => .thrown msg s'

/-- How a finite stretch of the loop ends: still running, or left by the throw. -/
inductive LoopResult where
  | running (s : CycleState)
  | thrown (msg : String) (s : CycleState)
  deriving DecidableEq

/-- The loop of `cycleThroughPhases` over the given passes: the phases
committed to `_currentPhase`, in order, and how the stretch ends. -/
def TrafficLight.cycleLoop (toSeconds : Int → ℚ) :
    CycleState → List LoopPass → List TrafficLightPhase × LoopResult
  | s, [] => ([], .running s)
  | s, i :: rest =>
    match TrafficLight.cyclePass toSeconds s i with
    | .idle s' => TrafficLight.cycleLoop toSeconds s' rest
    | .toggled s' =>
      let r := TrafficLight.cycleLoop toSeconds s' rest
      (s'.light._currentPhase :: r.1, r.2)
    | .thrown msg s' => ([], .thrown msg s')

/-- `TrafficLight::cycleThroughPhases` (lines 68-111) run for the given passes:
`start0` is the clock reading of line 77 and `draw0` the value `dist(rd)` of
line 78. -/
def TrafficLight.cycleThroughPhases (toSeconds : Int → ℚ) (l : TrafficLight) (start0 : Int)
    (draw0 : ℚ) (passes : List LoopPass) : List TrafficLightPhase × LoopResult :=
  TrafficLight.cycleLoop toSeconds { light := l, start := start0, wait_time := draw0 } passes

/-- The cycling task and the object it shares with the consumer, between two
steps of a run: `toSend` is `some p` while the task has committed a phase and
stands before the send of line 105 with its local `p`. -/
structure SystemState where
  cycle : CycleState
  toSend : Option TrafficLightPhase
  deriving DecidableEq

/-- A step of a run with one cycling task and one consumer: lines 80-103 of a
pass of the cycling loop, the send of line 105 that ends a toggling pass, or one
`receive` made by the consumer inside `waitForGreen`. -/
inductive Event where
  | poll (i : LoopPass)
  | publish
  | consume
  deriving DecidableEq

/-- The state after the events, taken in order; `none` when the events are not
a run of the program: a step of the cycling task out of its program order, a
pass that threw, or a `receive` of the consumer that returned no value. -/
def TrafficLight.systemRun (toSeconds : Int → ℚ) :
    SystemState → List Event → Option SystemState
  | s, [] => some s
  | s, .poll i :: es =>
    match s.toSend with
    | some _ => none
    | none =>
      match TrafficLight.cycleDecide toSeconds s.cycle i with
      | .idle c => TrafficLight.systemRun toSeconds { cycle := c, toSend := none } es
      | .committed c p => TrafficLight.systemRun toSeconds { cycle := c, toSend := some p } es
      | .thrown _ _ => none
  | s, .publish :: es =>
    match s.toSend with
    | some p =>
      TrafficLight.systemRun toSeconds
        { cycle := TrafficLight.cyclePublish s.cycle p, toSend := none } es
    | none => none
  | s, .consume :: es =>
    match s.cycle.light._phases.receive with
    | .returned (_, q) =>
      TrafficLight.systemRun toSeconds
        { cycle := { s.cycle with light := { s.cycle.light with _phases := q } }
          toSend := s.toSend } es
    | _ => none

/-- What holds of every state such a run reaches: the phase is red or green; a
phase waiting to be sent is the current phase; and when none is waiting, the
value sent last, while it is still queued, is the current phase. -/
def TrafficLight.Published (s : SystemState) : Prop :=
  s.cycle.light._currentPhase.Valid ∧
    (∀ p, s.toSend = some p → s.cycle.light._currentPhase = p) ∧
    (s.toSend = none →
      ∀ x, s.cycle.light._phases._queue.getLast? = some x → x = s.cycle.light._currentPhase)

/-! ## Theorems -/

namespace MessageQueue

variable {T : Type}

theorem receive_cons (v : T) (rest : List T) :
    receive { _queue := v :: rest } = .returned (v, { _queue := rest }) := by
  simp [receive, waitParks, receiveWaitPredicate]

theorem receive_nil : receive ({ _queue := [] } : MessageQueue T) = .parked := by
  simp [receive, waitParks, receiveWaitPredicate]

theorem receive_returned (q : MessageQueue T) (v : T) (q' : MessageQueue T)
    (h : receive q = .returned (v, q')) : q._queue = v :: q'._queue := by
  obtain ⟨l⟩ := q
  cases l with
  | nil => rw [receive_nil] at h; cases h
  | cons x rest =>
    rw [receive_cons] at h
    cases h
    rfl

theorem runCalls_spec (calls : List (Call T)) :
    ∀ q : MessageQueue T, receivesOnNonEmpty q calls = true →
      ∃ received remaining,
        runCalls q calls = some (received, remaining) ∧
        received ++ remaining._queue = q._queue ++ sentValues calls ∧
        received.length = receiveCount calls := by
  induction calls with
  | nil =>
    intro q _
    exact ⟨[], q, rfl, by simp [sentValues], rfl⟩
  | cons c cs ih =>
    intro q h
    cases c with
    | send v =>
      obtain ⟨r, q', hrun, hcat, hlen⟩ := ih (send q v) (by simpa [receivesOnNonEmpty] using h)
      refine ⟨r, q', by simpa [runCalls] using hrun, ?_, by simpa [receiveCount] using hlen⟩
      simp [hcat, send, sentValues]
    | receive =>
      obtain ⟨l⟩ := q
      cases l with
      | nil => simp [receivesOnNonEmpty] at h
      | cons v rest =>
        have h' : receivesOnNonEmpty { _queue := rest } cs = true := by
          simpa [receivesOnNonEmpty] using h
        obtain ⟨r, q', hrun, hcat, hlen⟩ := ih { _queue := rest } h'
        refine ⟨v :: r, q', ?_, ?_, ?_⟩
        · simp [runCalls, receive_cons, hrun]
        · simpa [sentValues] using hcat
        · simp [receiveCount, hlen]

/-- C1: on a queue that starts empty, with every `receive` issued while the
queue holds an element, all `receive` calls return, and the values they return
in call order, followed by the values still queued, are exactly the values
passed to `send` in call order; one value is returned per `receive` call. -/
theorem fifo_no_loss (calls : List (Call T))
    (h : receivesOnNonEmpty ({ _queue := [] } : MessageQueue T) calls = true) :
    ∃ received remaining,
      runCalls ({ _queue := [] } : MessageQueue T) calls = some (received, remaining) ∧
      received ++ remaining._queue = sentValues calls ∧
      received.length = receiveCount calls ∧
      received = (sentValues calls).take (receiveCount calls) := by
  obtain ⟨r, q', hrun, hcat, hlen⟩ := runCalls_spec calls { _queue := [] } h
  have hcat' : r ++ q'._queue = sentValues calls := by simpa using hcat
  refine ⟨r, q', hrun, hcat', hlen, ?_⟩
  rw [← hcat', ← hlen, List.take_left']
  rfl

theorem fifo_no_loss_witness :
    receivesOnNonEmpty ({ _queue := [] } : MessageQueue Nat)
        [.send 7, .send 8, .receive, .send 9, .receive] = true ∧
      ∃ received remaining,
        runCalls ({ _queue := [] } : MessageQueue Nat)
            [.send 7, .send 8, .receive, .send 9, .receive] = some (received, remaining) ∧
        received ++ remaining._queue = sentValues [.send 7, .send 8, .receive, .send 9, .receive] ∧
        received.length =
          receiveCount ([.send 7, .send 8, .receive, .send 9, .receive] : List (Call Nat)) ∧
        received =
          (sentValues [.send 7, .send 8, .receive, .send 9, .receive]).take
            (receiveCount ([.send 7, .send 8, .receive, .send 9, .receive] : List (Call Nat))) :=
  ⟨by decide, fifo_no_loss _ (by decide)⟩

/-- With the test of the closure as the answer of the wait predicate, `receive`
is held on the empty queue, returns nothing but the front element of a queue
that holds one, and never reaches `front()` on an empty deque. -/
theorem receive_guarded :
    receive ({ _queue := [] } : MessageQueue T) = .parked ∧
    (∀ (q : MessageQueue T) (v : T) (q' : MessageQueue T),
      receive q = .returned (v, q') → q._queue = v :: q'._queue) ∧
    (∀ q : MessageQueue T, receive q ≠ .emptyFront) := by
  refine ⟨receive_nil, receive_returned, fun q h => ?_⟩
  obtain ⟨l⟩ := q
  cases l with
  | nil => rw [receive_nil] at h; cases h
  | cons x rest => rw [receive_cons] at h; cases h

/-- C2: the wait predicate of `receive`.  The closure of line 15, as it is
written, hands back no boolean for any queue, empty or not, so it is not a
predicate that evaluates to true on the non-empty queues and to false on the
empty one; the test it computes and drops is true exactly on the non-empty
queues. -/
theorem receive_wait_closure_hands_back_nothing :
    (∀ q : MessageQueue T, receiveWaitClosure q = none) ∧
    (∀ q : MessageQueue T, receiveWaitClosure q ≠ some (receiveWaitPredicate q)) ∧
    (∀ q : MessageQueue T, receiveWaitPredicate q = true ↔ q._queue ≠ []) := by
  refine ⟨fun _ => rfl, fun q h => ?_, fun q => ?_⟩
  · cases h
  · cases hq : q._queue <;> simp [receiveWaitPredicate, hq]

/-- C10, as the claim states it, fails: in `send` the notification does not
come after a release of the mutex, whether or not line 28 puts a guard on it,
while in the order the claim describes it does. -/
theorem send_notifies_before_release :
    notifiesAfterRelease false (sendEffectsClaimed (7 : Nat)) = true ∧
    notifiesAfterRelease false (sendEffects true (7 : Nat)) = false ∧
    notifiesAfterRelease false (sendEffects false (7 : Nat)) = false ∧
    sendEffects true (7 : Nat) ≠ sendEffectsClaimed 7 ∧
    sendEffects false (7 : Nat) ≠ sendEffectsClaimed 7 := by
  refine ⟨rfl, rfl, rfl, ?_, ?_⟩ <;> simp [sendEffects, sendEffectsClaimed]

/-- C10, amended: `send` appends the value to the tail of the deque and then,
as its next effect, calls `notify_one` once; no release of the mutex comes
before the notification, a guard of line 28 is given up only after it, at the
end of the scope; `send` makes no wait and no other access to the deque; these
effects do to the deque what `send` and a returning `receive` do; the append
is made under the mutex exactly when line 28 holds a guard; and a `receive`
makes its accesses to the deque (`front`, `pop_front`) with the mutex held,
between the lock of line 14 and its release at the return. -/
theorem send_effects_order (guard : Bool) (msg : T) :
    (∃ pre post, sendEffects guard msg = pre ++ Effect.pushBack msg :: Effect.notifyOne :: post ∧
      pre = (if guard then [Effect.lock] else []) ∧
      post = (if guard then [Effect.unlock] else [])) ∧
    notifiesAfterRelease false (sendEffects guard msg) = false ∧
    Effect.wait ∉ sendEffects guard msg ∧
    Effect.front ∉ sendEffects guard msg ∧
    Effect.popFront ∉ sendEffects guard msg ∧
    (∀ q : MessageQueue T,
      applyEffects (sendEffects guard msg) q._queue = (send q msg)._queue) ∧
    (∀ (q : MessageQueue T) (v : T) (q' : MessageQueue T),
      receive q = .returned (v, q') → applyEffects receiveEffects q._queue = q'._queue) ∧
    accessesUnderLock false (sendEffects guard msg) = guard ∧
    accessesUnderLock false (receiveEffects : List (Effect T)) = true := by
  have hrecv : ∀ (q : MessageQueue T) (v : T) (q' : MessageQueue T),
      receive q = .returned (v, q') → applyEffects receiveEffects q._queue = q'._queue := by
    intro q v q' h
    rw [receive_returned q v q' h]
    simp [receiveEffects, applyEffects]
  have hlock : accessesUnderLock false (receiveEffects : List (Effect T)) = true := by
    simp [receiveEffects, accessesUnderLock]
  refine ⟨?_, ?_, ?_, ?_, ?_, ?_, hrecv, ?_, hlock⟩ <;> cases guard <;>
    simp [sendEffects, notifiesAfterRelease, applyEffects, accessesUnderLock, send]

end MessageQueue

/-! ### The cycling loop, pass by pass -/

theorem TrafficLight.cycleDecide_of_lt (toSeconds : Int → ℚ) (s : CycleState) (i : LoopPass)
    (h : toSeconds (i.now - s.start) < s.wait_time) :
    TrafficLight.cycleDecide toSeconds s i = .idle s := by
  have h' : ¬ (toSeconds (i.now - s.start) ≥ s.wait_time) := not_le.mpr h
  simp only [TrafficLight.cycleDecide, h', if_false]

theorem TrafficLight.cycleDecide_of_red (toSeconds : Int → ℚ) (s : CycleState) (i : LoopPass)
    (h : s.wait_time ≤ toSeconds (i.now - s.start)) (hp : s.light._currentPhase = .red) :
    TrafficLight.cycleDecide toSeconds s i =
      .committed
        { light := { _currentPhase := .green, _phases := s.light._phases }
          start := i.restart
          wait_time := i.draw }
        .green := by
  have h' : toSeconds (i.now - s.start) ≥ s.wait_time := h
  simp only [TrafficLight.cycleDecide, h', if_true, hp]

theorem TrafficLight.cycleDecide_of_green (toSeconds : Int → ℚ) (s : CycleState) (i : LoopPass)
    (h : s.wait_time ≤ toSeconds (i.now - s.start)) (hp : s.light._currentPhase = .green) :
    TrafficLight.cycleDecide toSeconds s i =
      .committed
        { light := { _currentPhase := .red, _phases := s.light._phases }
          start := i.restart
          wait_time := i.draw }
        .red := by
  have h' : toSeconds (i.now - s.start) ≥ s.wait_time := h
  simp only [TrafficLight.cycleDecide, h', if_true, hp]

theorem TrafficLight.cycleDecide_of_invalid (toSeconds : Int → ℚ) (s : CycleState)
    (i : LoopPass) (h : s.wait_time ≤ toSeconds (i.now - s.start))
    (hp : s.light._currentPhase = .invalid) :
    TrafficLight.cycleDecide toSeconds s i = .thrown "bad value for _currentPhase" s := by
  have h' : toSeconds (i.now - s.start) ≥ s.wait_time := h
  simp only [TrafficLight.cycleDecide, h', if_true, hp]

theorem TrafficLight.cycleDecide_cases (toSeconds : Int → ℚ) (s : CycleState) (i : LoopPass)
    (hv : s.light._currentPhase.Valid) :
    TrafficLight.cycleDecide toSeconds s i = .idle s ∨
      ∃ s' p, TrafficLight.cycleDecide toSeconds s i = .committed s' p ∧
        s'.light._currentPhase = p ∧ p.Valid ∧ p ≠ s.light._currentPhase ∧
        s'.light._phases = s.light._phases := by
  rcases lt_or_le (toSeconds (i.now - s.start)) s.wait_time with h | h
  · exact Or.inl (TrafficLight.cycleDecide_of_lt toSeconds s i h)
  · right
    rcases hv with hp | hp
    · exact ⟨_, _, TrafficLight.cycleDecide_of_red toSeconds s i h hp, rfl, Or.inr rfl,
        by simp [hp], rfl⟩
    · exact ⟨_, _, TrafficLight.cycleDecide_of_green toSeconds s i h hp, rfl, Or.inl rfl,
        by simp [hp], rfl⟩

theorem TrafficLight.cyclePass_of_lt (toSeconds : Int → ℚ) (s : CycleState) (i : LoopPass)
    (h : toSeconds (i.now - s.start) < s.wait_time) :
    TrafficLight.cyclePass toSeconds s i = .idle s := by
  simp only [TrafficLight.cyclePass, TrafficLight.cycleDecide_of_lt toSeconds s i h]

theorem TrafficLight.cyclePass_of_red (toSeconds : Int → ℚ) (s : CycleState) (i : LoopPass)
    (h : s.wait_time ≤ toSeconds (i.now - s.start)) (hp : s.light._currentPhase = .red) :
    TrafficLight.cyclePass toSeconds s i =
      .toggled
        { light := { _currentPhase := .green
                     _phases := { _queue := s.light._phases._queue ++ [.green] } }
          start := i.restart
          wait_time := i.draw } := by
  simp only [TrafficLight.cyclePass, TrafficLight.cycleDecide_of_red toSeconds s i h hp,
    TrafficLight.cyclePublish, MessageQueue.send]

theorem TrafficLight.cyclePass_of_green (toSeconds : Int → ℚ) (s : CycleState) (i : LoopPass)
    (h : s.wait_time ≤ toSeconds (i.now - s.start)) (hp : s.light._currentPhase = .green) :
    TrafficLight.cyclePass toSeconds s i =
      .toggled
        { light := { _currentPhase := .red
                     _phases := { _queue := s.light._phases._queue ++ [.red] } }
          start := i.restart
          wait_time := i.draw } := by
  simp only [TrafficLight.cyclePass, TrafficLight.cycleDecide_of_green toSeconds s i h hp,
    TrafficLight.cyclePublish, MessageQueue.send]

theorem TrafficLight.cyclePass_of_invalid (toSeconds : Int → ℚ) (s : CycleState) (i : LoopPass)
    (h : s.wait_time ≤ toSeconds (i.now - s.start)) (hp : s.light._currentPhase = .invalid) :
    TrafficLight.cyclePass toSeconds s i = .thrown "bad value for _currentPhase" s := by
  simp only [TrafficLight.cyclePass, TrafficLight.cycleDecide_of_invalid toSeconds s i h hp]

theorem TrafficLight.cyclePass_cases (toSeconds : Int → ℚ) (s : CycleState) (i : LoopPass)
    (hv : s.light._currentPhase.Valid) :
    TrafficLight.cyclePass toSeconds s i = .idle s ∨
      ∃ s', TrafficLight.cyclePass toSeconds s i = .toggled s' ∧
        s'.light._currentPhase.Valid ∧
        s'.light._currentPhase ≠ s.light._currentPhase ∧
        s'.light._phases._queue = s.light._phases._queue ++ [s'.light._currentPhase] := by
  rcases lt_or_le (toSeconds (i.now - s.start)) s.wait_time with h | h
  · exact Or.inl (TrafficLight.cyclePass_of_lt toSeconds s i h)
  · right
    rcases hv with hp | hp
    · exact ⟨_, TrafficLight.cyclePass_of_red toSeconds s i h hp, Or.inr rfl, by simp [hp], rfl⟩
    · exact ⟨_, TrafficLight.cyclePass_of_green toSeconds s i h hp, Or.inl rfl, by simp [hp],
        rfl⟩

theorem TrafficLight.cycleLoop_alternates (toSeconds : Int → ℚ) (passes : List LoopPass) :
    ∀ s : CycleState, s.light._currentPhase.Valid →
      ∃ committed s',
        TrafficLight.cycleLoop toSeconds s passes = (committed, .running s') ∧
        List.Chain (fun a b => a ≠ b ∧ b.Valid) s.light._currentPhase committed ∧
        s'.light._currentPhase = (committed.getLast?).getD s.light._currentPhase := by
  induction passes with
  | nil =>
    intro s _
    exact ⟨[], s, rfl, List.Chain.nil, rfl⟩
  | cons i rest ih =>
    intro s hv
    rcases TrafficLight.cyclePass_cases toSeconds s i hv with h | ⟨s1, h, hv1, hne, _⟩
    · obtain ⟨c, s', hrun, hchain, hlast⟩ := ih s hv
      exact ⟨c, s', by simp [TrafficLight.cycleLoop, h, hrun], hchain, hlast⟩
    · obtain ⟨c, s', hrun, hchain, hlast⟩ := ih s1 hv1
      refine ⟨s1.light._currentPhase :: c, s', by simp [TrafficLight.cycleLoop, h, hrun],
        List.Chain.cons ⟨fun e => hne e.symm, hv1⟩ hchain, ?_⟩
      rw [hlast]
      cases c with
      | nil => simp
      | cons x xs =>
        rw [List.getLast?_cons_cons, List.getLast?_eq_getLast _ (List.cons_ne_nil x xs)]
        rfl

theorem TrafficLight.chain_pattern (l : List TrafficLightPhase) :
    ∀ p p' : TrafficLightPhase, p.Valid → p'.Valid → p' ≠ p →
      List.Chain (fun a b => a ≠ b ∧ b.Valid) p l →
        l = (List.range l.length).map fun k => if k % 2 = 0 then p' else p := by
  induction l with
  | nil => intro _ _ _ _ _ _; rfl
  | cons x xs ih =>
    intro p p' hp hp' hne hchain
    obtain ⟨⟨hxp, hx⟩, hrest⟩ := List.chain_cons.mp hchain
    have hxp' : x = p' := by
      rcases hp with rfl | rfl <;> rcases hp' with rfl | rfl <;> rcases hx with rfl | rfl <;>
        simp_all
    subst hxp'
    have hxs := ih x p hx hp (fun e => hne e.symm) hrest
    rw [List.length_cons, List.range_succ_eq_map, List.map_cons, List.map_map]
    refine congrArg₂ _ (by simp) ?_
    conv_lhs => rw [hxs]
    refine List.map_congr_left fun k _ => ?_
    have hk : (k + 1) % 2 = 0 ↔ ¬ k % 2 = 0 := by omega
    by_cases h0 : k % 2 = 0
    · simp [h0, hk]
    · simp [h0, hk]

/-! ### `waitForGreen` on a given mailbox content -/

theorem TrafficLight.waitForGreen_cons_green (fuel : Nat) (c : TrafficLightPhase)
    (rest : List TrafficLightPhase) :
    TrafficLight.waitForGreen (fuel + 1)
        { _currentPhase := c, _phases := { _queue := .green :: rest } } =
      some (.returned { _currentPhase := c, _phases := { _queue := rest } }) := by
  simp [TrafficLight.waitForGreen, MessageQueue.receive_cons]

theorem TrafficLight.waitForGreen_cons_other (fuel : Nat) (c v : TrafficLightPhase)
    (rest : List TrafficLightPhase) (hv : v ≠ .green) :
    TrafficLight.waitForGreen (fuel + 1)
        { _currentPhase := c, _phases := { _queue := v :: rest } } =
      TrafficLight.waitForGreen fuel { _currentPhase := c, _phases := { _queue := rest } } := by
  simp [TrafficLight.waitForGreen, MessageQueue.receive_cons, hv]

theorem TrafficLight.waitForGreen_nil (fuel : Nat) (c : TrafficLightPhase) :
    TrafficLight.waitForGreen (fuel + 1)
        { _currentPhase := c, _phases := { _queue := [] } } = some .parked := by
  simp [TrafficLight.waitForGreen, MessageQueue.receive_nil]

theorem TrafficLight.waitForGreen_skips (c : TrafficLightPhase)
    (rest : List TrafficLightPhase) (skipped : List TrafficLightPhase) :
    (∀ p ∈ skipped, p ≠ TrafficLightPhase.green) → ∀ fuel, skipped.length < fuel →
      TrafficLight.waitForGreen fuel
          { _currentPhase := c, _phases := { _queue := skipped ++ .green :: rest } } =
        some (.returned { _currentPhase := c, _phases := { _queue := rest } }) := by
  induction skipped with
  | nil =>
    intro _ fuel hf
    obtain ⟨k, rfl⟩ : ∃ k, fuel = k + 1 := ⟨fuel - 1, by simp at hf; omega⟩
    exact TrafficLight.waitForGreen_cons_green k c rest
  | cons v vs ih =>
    intro hall fuel hf
    obtain ⟨k, rfl⟩ : ∃ k, fuel = k + 1 := ⟨fuel - 1, by simp at hf; omega⟩
    have hv : v ≠ .green := hall v (List.mem_cons_self v vs)
    rw [List.cons_append, TrafficLight.waitForGreen_cons_other k c v _ hv]
    exact ih (fun p hp => hall p (List.mem_cons_of_mem v hp)) k (by simp at hf; omega)

theorem TrafficLight.waitForGreen_held (c : TrafficLightPhase)
    (skipped : List TrafficLightPhase) :
    (∀ p ∈ skipped, p ≠ TrafficLightPhase.green) → ∀ fuel, skipped.length < fuel →
      TrafficLight.waitForGreen fuel { _currentPhase := c, _phases := { _queue := skipped } } =
        some .parked := by
  induction skipped with
  | nil =>
    intro _ fuel hf
    obtain ⟨k, rfl⟩ : ∃ k, fuel = k + 1 := ⟨fuel - 1, by simp at hf; omega⟩
    exact TrafficLight.waitForGreen_nil k c
  | cons v vs ih =>
    intro hall fuel hf
    obtain ⟨k, rfl⟩ : ∃ k, fuel = k + 1 := ⟨fuel - 1, by simp at hf; omega⟩
    have hv : v ≠ .green := hall v (List.mem_cons_self v vs)
    rw [TrafficLight.waitForGreen_cons_other k c v _ hv]
    exact ih (fun p hp => hall p (List.mem_cons_of_mem v hp)) k (by simp at hf; omega)

theorem TrafficLight.waitForGreen_returned (fuel : Nat) :
    ∀ (c : TrafficLightPhase) (q : List TrafficLightPhase) (l' : TrafficLight),
      TrafficLight.waitForGreen fuel { _currentPhase := c, _phases := { _queue := q } } =
          some (.returned l') →
        ∃ skipped, (∀ p ∈ skipped, p ≠ TrafficLightPhase.green) ∧
          q = skipped ++ .green :: l'._phases._queue ∧ l'._currentPhase = c := by
  induction fuel with
  | zero =>
    intro c q l' h
    simp [TrafficLight.waitForGreen] at h
  | succ k ih =>
    intro c q l' h
    cases q with
    | nil =>
      rw [TrafficLight.waitForGreen_nil] at h
      simp at h
    | cons v rest =>
      by_cases hv : v = .green
      · subst hv
        rw [TrafficLight.waitForGreen_cons_green] at h
        simp only [Option.some.injEq, Outcome.returned.injEq] at h
        subst h
        exact ⟨[], by simp, by simp, rfl⟩
      · rw [TrafficLight.waitForGreen_cons_other k c v rest hv] at h
        obtain ⟨sk, hsk, hq, hc⟩ := ih c rest l' h
        refine ⟨v :: sk, ?_, by simp [hq], hc⟩
        intro p hp
        rcases List.mem_cons.mp hp with rfl | hp
        · exact hv
        · exact hsk p hp

/-! ### Runs of the cycling task together with a consumer -/

theorem TrafficLight.published_systemRun (toSeconds : Int → ℚ) (events : List Event) :
    ∀ s s' : SystemState, TrafficLight.Published s →
      TrafficLight.systemRun toSeconds s events = some s' → TrafficLight.Published s' := by
  induction events with
  | nil =>
    intro s s' hs h
    simp only [TrafficLight.systemRun, Option.some.injEq] at h
    exact h ▸ hs
  | cons e es ih =>
    intro s s' hs h
    obtain ⟨cyc, ts⟩ := s
    cases e with
    | poll i =>
      cases ts with
      | some p => simp [TrafficLight.systemRun] at h
      | none =>
        rcases TrafficLight.cycleDecide_cases toSeconds cyc i hs.1 with
          hp | ⟨c1, p, hp, hcur, hval, _, hq⟩
        · simp only [TrafficLight.systemRun, hp] at h
          exact ih _ s' hs h
        · simp only [TrafficLight.systemRun, hp] at h
          refine ih _ s' ⟨hcur ▸ hval, ?_, ?_⟩ h
          · intro p' hp'
            simp only [Option.some.injEq] at hp'
            exact hcur.trans hp'
          · intro hnone
            simp at hnone
    | publish =>
      cases ts with
      | none => simp [TrafficLight.systemRun] at h
      | some p =>
        simp only [TrafficLight.systemRun] at h
        have hcur : cyc.light._currentPhase = p := hs.2.1 p rfl
        refine ih { cycle := TrafficLight.cyclePublish cyc p, toSend := none } s'
          ⟨hs.1, ?_, ?_⟩ h
        · intro p' hp'
          cases hp'
        · intro _ x hx
          have hx' : (cyc.light._phases._queue ++ [p]).getLast? = some x := hx
          rw [List.getLast?_concat] at hx'
          cases hx'
          exact hcur.symm
    | consume =>
      obtain ⟨⟨c, ⟨q⟩⟩, st, wt⟩ := cyc
      cases q with
      | nil => simp [TrafficLight.systemRun, MessageQueue.receive_nil] at h
      | cons v rest =>
        simp only [TrafficLight.systemRun, MessageQueue.receive_cons] at h
        refine ih { cycle := { light := { _currentPhase := c, _phases := { _queue := rest } }
                               start := st, wait_time := wt }
                    toSend := ts } s' ⟨hs.1, hs.2.1, ?_⟩ h
        intro hnone x hx
        refine hs.2.2 hnone x ?_
        cases rest with
        | nil => simp at hx
        | cons y ys =>
          show (v :: y :: ys).getLast? = some x
          rw [List.getLast?_cons_cons]
          exact hx

/-! ### The claims about `TrafficLight` -/

/-- C3: for every finite stretch of the loop of one cycling task started on a
freshly constructed light, the task does not throw, and the phases it commits
alternate: each committed phase is red or green and differs from the phase
before it, the first one from the initial phase; the committed sequence is
green, red, green, red, and so on. -/
theorem TrafficLight.committed_phases_alternate (toSeconds : Int → ℚ) (start0 : Int)
    (draw0 : ℚ) (passes : List LoopPass) :
    ∃ committed s',
      TrafficLight.cycleThroughPhases toSeconds TrafficLight.ctor start0 draw0 passes =
        (committed, .running s') ∧
      List.Chain (fun a b => a ≠ b ∧ b.Valid) TrafficLight.ctor._currentPhase committed ∧
      committed = (List.range committed.length).map fun k =>
        if k % 2 = 0 then TrafficLightPhase.green else TrafficLightPhase.red := by
  obtain ⟨c, s', hrun, hchain, _⟩ :=
    TrafficLight.cycleLoop_alternates toSeconds passes
      { light := TrafficLight.ctor, start := start0, wait_time := draw0 } (Or.inl rfl)
  exact ⟨c, s', hrun, hchain,
    TrafficLight.chain_pattern c .red .green (Or.inl rfl) (Or.inr rfl) (by decide) hchain⟩

/-- C4: on a mailbox `reds ++ [green] ++ rest` with only red values in `reds`,
`waitForGreen` returns (any bound on the loop passes above the length of `reds`
is enough) having consumed exactly `reds ++ [green]`, with `rest` left in the
mailbox; on receiving a red value it does not return but goes on to the next
`receive`, and whenever it returns the value received last was green; on a
mailbox of red values only it does not return, however many passes it is
given: it consumes them, and the call then ends in a `receive` on the emptied
mailbox that hands it no value. -/
theorem TrafficLight.waitForGreen_spec (c : TrafficLightPhase)
    (reds rest : List TrafficLightPhase) (hreds : ∀ p ∈ reds, p = TrafficLightPhase.red) :
    (∀ fuel, reds.length < fuel →
      TrafficLight.waitForGreen fuel
          { _currentPhase := c, _phases := { _queue := reds ++ [.green] ++ rest } } =
        some (.returned { _currentPhase := c, _phases := { _queue := rest } })) ∧
    (∀ fuel q,
      TrafficLight.waitForGreen (fuel + 1)
          { _currentPhase := c, _phases := { _queue := .red :: q } } =
        TrafficLight.waitForGreen fuel { _currentPhase := c, _phases := { _queue := q } }) ∧
    (∀ fuel q l',
      TrafficLight.waitForGreen fuel { _currentPhase := c, _phases := { _queue := q } } =
          some (.returned l') →
        ∃ skipped, q = skipped ++ [.green] ++ l'._phases._queue ∧
          TrafficLightPhase.green ∉ skipped) ∧
    (∀ fuel, reds.length < fuel →
      ∃ o, TrafficLight.waitForGreen fuel
          { _currentPhase := c, _phases := { _queue := reds } } = some o ∧
        ∀ l', o ≠ .returned l') ∧
    (∀ fuel l',
      TrafficLight.waitForGreen fuel { _currentPhase := c, _phases := { _queue := reds } } ≠
        some (.returned l')) := by
  have hng : ∀ p ∈ reds, p ≠ TrafficLightPhase.green := by
    intro p hp hpg
    rw [hreds p hp] at hpg
    cases hpg
  refine ⟨?_, ?_, ?_, ?_, ?_⟩
  · intro fuel hf
    rw [List.append_assoc, List.singleton_append]
    exact TrafficLight.waitForGreen_skips c rest reds hng fuel hf
  · intro fuel q
    exact TrafficLight.waitForGreen_cons_other fuel c .red q (by decide)
  · intro fuel q l' h
    obtain ⟨sk, hsk, hq, _⟩ := TrafficLight.waitForGreen_returned fuel c q l' h
    refine ⟨sk, by simp [hq], fun hmem => hsk _ hmem rfl⟩
  · intro fuel hf
    exact ⟨.parked, TrafficLight.waitForGreen_held c reds hng fuel hf, fun l' h => by cases h⟩
  · intro fuel l' h
    obtain ⟨sk, _, hq, _⟩ := TrafficLight.waitForGreen_returned fuel c reds l' h
    have hmem : TrafficLightPhase.green ∈ reds := by
      rw [hq]
      simp
    exact hng _ hmem rfl

/-- C5: one pass of the cycling loop.  With `diff >= wait_time` and the phase
red (green), the phase becomes green (red), `start` is set to the new clock
reading, `wait_time` to the new draw, and exactly the new phase is appended to
the mailbox; with `diff < wait_time` the whole state stays as it is.  `diff` is
the value the program compares, the tick difference turned into seconds. -/
theorem TrafficLight.cyclePass_effect (toSeconds : Int → ℚ) (s : CycleState) (i : LoopPass) :
    (s.wait_time ≤ toSeconds (i.now - s.start) → s.light._currentPhase = .red →
      TrafficLight.cyclePass toSeconds s i =
        .toggled
          { light := { _currentPhase := .green
                       _phases := { _queue := s.light._phases._queue ++ [.green] } }
            start := i.restart
            wait_time := i.draw }) ∧
    (s.wait_time ≤ toSeconds (i.now - s.start) → s.light._currentPhase = .green →
      TrafficLight.cyclePass toSeconds s i =
        .toggled
          { light := { _currentPhase := .red
                       _phases := { _queue := s.light._phases._queue ++ [.red] } }
            start := i.restart
            wait_time := i.draw }) ∧
    (toSeconds (i.now - s.start) < s.wait_time →
      TrafficLight.cyclePass toSeconds s i = .idle s) :=
  ⟨TrafficLight.cyclePass_of_red toSeconds s i, TrafficLight.cyclePass_of_green toSeconds s i,
    TrafficLight.cyclePass_of_lt toSeconds s i⟩

/-- C6: in every state reached by a run of one cycling task and one consumer
from a freshly constructed light, with the consumer free to run between the
commit of a phase and its send: a phase that waits to be sent is the value of
`_currentPhase` at that moment, and the send appends exactly it; and when no
committed phase waits to be sent (no further toggle) and `waitForGreen`
returns there leaving the mailbox empty (it consumed the value sent last),
`getCurrentPhase` returns green. -/
theorem TrafficLight.sent_phase_is_current (toSeconds : Int → ℚ) (start0 : Int) (draw0 : ℚ)
    (events : List Event) (s : SystemState)
    (h : TrafficLight.systemRun toSeconds
        { cycle := { light := TrafficLight.ctor, start := start0, wait_time := draw0 }
          toSend := none } events = some s) :
    (∀ p, s.toSend = some p →
        s.cycle.light._currentPhase = p ∧
        (TrafficLight.cyclePublish s.cycle p).light._currentPhase = p ∧
        (TrafficLight.cyclePublish s.cycle p).light._phases._queue =
          s.cycle.light._phases._queue ++ [s.cycle.light._currentPhase]) ∧
    (s.toSend = none →
      ∀ fuel l', TrafficLight.waitForGreen fuel s.cycle.light = some (.returned l') →
        l'._phases._queue = [] → l'.getCurrentPhase.1 = .green) := by
  have hinit : TrafficLight.Published
      { cycle := { light := TrafficLight.ctor, start := start0, wait_time := draw0 }
        toSend := none } := by
    refine ⟨Or.inl rfl, ?_, ?_⟩
    · intro p hp
      cases hp
    · intro _ x hx
      simp [TrafficLight.ctor] at hx
  have hpub : TrafficLight.Published s :=
    TrafficLight.published_systemRun toSeconds events _ s hinit h
  constructor
  · intro p hp
    have hcur := hpub.2.1 p hp
    refine ⟨hcur, hcur, ?_⟩
    simp [TrafficLight.cyclePublish, MessageQueue.send, hcur]
  · intro hnone fuel l' hw hempty
    obtain ⟨⟨⟨c, ⟨q⟩⟩, st, wt⟩, ts⟩ := s
    obtain ⟨sk, _, hq, hc⟩ := TrafficLight.waitForGreen_returned fuel c q l' hw
    have hlast : q.getLast? = some TrafficLightPhase.green := by
      rw [hq, hempty]
      exact List.getLast?_concat _
    have := hpub.2.2 hnone .green hlast
    simp only [TrafficLight.getCurrentPhase, hc]
    exact this.symm

/-- C7: a freshly constructed light has current phase red; `getCurrentPhase`
returns `_currentPhase` and leaves the object, phase and mailbox, as it was;
and after any stretch of the cycling loop on a fresh light that value is the
phase committed last (red when none was committed yet). -/
theorem TrafficLight.getCurrentPhase_spec :
    TrafficLight.ctor._currentPhase = .red ∧
    TrafficLight.ctor.getCurrentPhase.1 = .red ∧
    (∀ l : TrafficLight, l.getCurrentPhase = (l._currentPhase, l)) ∧
    (∀ (toSeconds : Int → ℚ) (start0 : Int) (draw0 : ℚ) (passes : List LoopPass),
      ∃ committed s',
        TrafficLight.cycleThroughPhases toSeconds TrafficLight.ctor start0 draw0 passes =
          (committed, .running s') ∧
        s'.light.getCurrentPhase = ((committed.getLast?).getD .red, s'.light)) := by
  refine ⟨rfl, rfl, fun _ => rfl, fun toSeconds start0 draw0 passes => ?_⟩
  obtain ⟨c, s', hrun, _, hlast⟩ :=
    TrafficLight.cycleLoop_alternates toSeconds passes
      { light := TrafficLight.ctor, start := start0, wait_time := draw0 } (Or.inl rfl)
  exact ⟨c, s', hrun, by simp only [TrafficLight.getCurrentPhase, hlast]; rfl⟩

/-- C8: at a toggle decision (`diff >= wait_time`) with a current phase that is
neither red nor green, the pass throws and leaves the state as it was, phase
and mailbox included, and the loop runs no further pass; with a current phase
that is red or green no pass throws. -/
theorem TrafficLight.invalid_phase_throws (toSeconds : Int → ℚ) (s : CycleState)
    (i : LoopPass) :
    (s.wait_time ≤ toSeconds (i.now - s.start) → s.light._currentPhase ≠ .red →
      s.light._currentPhase ≠ .green →
        TrafficLight.cyclePass toSeconds s i = .thrown "bad value for _currentPhase" s ∧
        ∀ rest, TrafficLight.cycleLoop toSeconds s (i :: rest) =
          ([], .thrown "bad value for _currentPhase" s)) ∧
    (s.light._currentPhase = .red ∨ s.light._currentPhase = .green →
      ∀ msg s', TrafficLight.cyclePass toSeconds s i ≠ .thrown msg s') := by
  constructor
  · intro h hr hg
    have hp : s.light._currentPhase = .invalid := by
      cases hc : s.light._currentPhase
      · exact absurd hc hr
      · exact absurd hc hg
      · rfl
    have ht := TrafficLight.cyclePass_of_invalid toSeconds s i h hp
    exact ⟨ht, fun rest => by simp [TrafficLight.cycleLoop, ht]⟩
  · intro hv msg s' ht
    rcases TrafficLight.cyclePass_cases toSeconds s i hv with hidle | ⟨s1, htog, _⟩
    · rw [hidle] at ht
      cases ht
    · rw [htog] at ht
      cases ht

/-! ### The theorems above at concrete inputs

Ticks are nanoseconds here, and `toSeconds` divides by `10^9` without rounding. -/

theorem TrafficLight.waitForGreen_spec_witness :
    TrafficLight.waitForGreen 3
        { _currentPhase := .red, _phases := { _queue := [.red, .red, .green, .red] } } =
      some (.returned { _currentPhase := .red, _phases := { _queue := [.red] } }) ∧
    (∃ o, TrafficLight.waitForGreen 3
        { _currentPhase := .red, _phases := { _queue := [.red, .red] } } = some o ∧
      ∀ l', o ≠ .returned l') ∧
    TrafficLight.waitForGreen 7
        { _currentPhase := .red, _phases := { _queue := [.red, .red] } } ≠
      some (.returned { _currentPhase := .red, _phases := { _queue := [] } }) :=
  ⟨(TrafficLight.waitForGreen_spec .red [.red, .red] [.red] (by simp)).1 3 (by decide),
    (TrafficLight.waitForGreen_spec .red [.red, .red] [.red] (by simp)).2.2.2.1 3 (by decide),
    (TrafficLight.waitForGreen_spec .red [.red, .red] [.red] (by simp)).2.2.2.2 7 _⟩

theorem TrafficLight.cyclePass_effect_witness :
    TrafficLight.cyclePass (fun t => (t : ℚ) / 1000000000)
        { light := { _currentPhase := .red, _phases := { _queue := [] } }
          start := 0, wait_time := 9 / 2 }
        { now := 5000000000, restart := 5000000100, draw := 4 } =
      .toggled
        { light := { _currentPhase := .green, _phases := { _queue := [.green] } }
          start := 5000000100, wait_time := 4 } ∧
    TrafficLight.cyclePass (fun t => (t : ℚ) / 1000000000)
        { light := { _currentPhase := .green, _phases := { _queue := [.green] } }
          start := 5000000100, wait_time := 4 }
        { now := 9000000100, restart := 9000000200, draw := 11 / 2 } =
      .toggled
        { light := { _currentPhase := .red, _phases := { _queue := [.green, .red] } }
          start := 9000000200, wait_time := 11 / 2 } ∧
    TrafficLight.cyclePass (fun t => (t : ℚ) / 1000000000)
        { light := { _currentPhase := .red, _phases := { _queue := [] } }
          start := 0, wait_time := 9 / 2 }
        { now := 4000000000, restart := 4000000000, draw := 4 } =
      .idle
        { light := { _currentPhase := .red, _phases := { _queue := [] } }
          start := 0, wait_time := 9 / 2 } :=
  ⟨(TrafficLight.cyclePass_effect _ _ _).1 (by norm_num) rfl,
    (TrafficLight.cyclePass_effect _ _ _).2.1 (by norm_num) rfl,
    (TrafficLight.cyclePass_effect _ _ _).2.2 (by norm_num)⟩

/-- The theorem of C6 at a run that ends after a send, followed by the run its
second part leaves out: a consumer scheduled between the commit of red and its
send returns from `waitForGreen` on the green sent before, with the mailbox
empty, while `_currentPhase` is already red. -/
theorem TrafficLight.sent_phase_is_current_witness :
    TrafficLight.systemRun (fun t => (t : ℚ) / 1000000000)
        { cycle := { light := TrafficLight.ctor, start := 0, wait_time := 9 / 2 }
          toSend := none }
        [.poll { now := 4000000000, restart := 4000000000, draw := 4 },
          .poll { now := 5000000000, restart := 5000000100, draw := 4 },
          .publish] =
      some { cycle := { light := { _currentPhase := .green, _phases := { _queue := [.green] } }
                        start := 5000000100, wait_time := 4 }
             toSend := none } ∧
    TrafficLight.waitForGreen 1 { _currentPhase := .green, _phases := { _queue := [.green] } } =
      some (.returned { _currentPhase := .green, _phases := { _queue := [] } }) ∧
    (TrafficLight.getCurrentPhase
        { _currentPhase := .green, _phases := { _queue := [] } }).1 = .green ∧
    TrafficLight.systemRun (fun t => (t : ℚ) / 1000000000)
        { cycle := { light := TrafficLight.ctor, start := 0, wait_time := 9 / 2 }
          toSend := none }
        [.poll { now := 5000000000, restart := 5000000100, draw := 4 },
          .publish,
          .poll { now := 9000000100, restart := 9000000200, draw := 5 }] =
      some { cycle := { light := { _currentPhase := .red, _phases := { _queue := [.green] } }
                        start := 9000000200, wait_time := 5 }
             toSend := some .red } ∧
    TrafficLight.waitForGreen 1 { _currentPhase := .red, _phases := { _queue := [.green] } } =
      some (.returned { _currentPhase := .red, _phases := { _queue := [] } }) ∧
    (TrafficLight.getCurrentPhase
        { _currentPhase := .red, _phases := { _queue := [] } }).1 ≠ .green :=
  have hrun : TrafficLight.systemRun (fun t => (t : ℚ) / 1000000000)
        { cycle := { light := TrafficLight.ctor, start := 0, wait_time := 9 / 2 }
          toSend := none }
        [.poll { now := 4000000000, restart := 4000000000, draw := 4 },
          .poll { now := 5000000000, restart := 5000000100, draw := 4 },
          .publish] =
      some { cycle := { light := { _currentPhase := .green, _phases := { _queue := [.green] } }
                        start := 5000000100, wait_time := 4 }
             toSend := none } := by
    norm_num [TrafficLight.systemRun, TrafficLight.cycleDecide, TrafficLight.cyclePublish,
      TrafficLight.ctor, MessageQueue.send]
  ⟨hrun, rfl,
    (TrafficLight.sent_phase_is_current _ 0 (9 / 2) _ _ hrun).2 rfl 1
      { _currentPhase := .green, _phases := { _queue := [] } } rfl rfl,
    by norm_num [TrafficLight.systemRun, TrafficLight.cycleDecide, TrafficLight.cyclePublish,
      TrafficLight.ctor, MessageQueue.send],
    rfl, by decide⟩

theorem TrafficLight.invalid_phase_throws_witness :
    TrafficLight.cyclePass (fun t => (t : ℚ) / 1000000000)
        { light := { _currentPhase := .invalid, _phases := { _queue := [.green] } }
          start := 0, wait_time := 9 / 2 }
        { now := 5000000000, restart := 5000000100, draw := 4 } =
      .thrown "bad value for _currentPhase"
        { light := { _currentPhase := .invalid, _phases := { _queue := [.green] } }
          start := 0, wait_time := 9 / 2 } ∧
    ∀ msg s',
      TrafficLight.cyclePass (fun t => (t : ℚ) / 1000000000)
          { light := { _currentPhase := .red, _phases := { _queue := [] } }
            start := 0, wait_time := 9 / 2 }
          { now := 5000000000, restart := 5000000100, draw := 4 } ≠ .thrown msg s' :=
  ⟨((TrafficLight.invalid_phase_throws _ _ _).1 (by norm_num) (by decide) (by decide)).1,
    (TrafficLight.invalid_phase_throws _ _ _).2 (Or.inl rfl)⟩
